import Mathlib

/-!
Shallow embedding of the snow-cover pixel cache engine
(`src/snow-cover/src/{utils,cache_manager,snow_cover_sqlite_archive,data_fetcher,pixel_extractor,fetch_snow_data,constants}.py`)
and proofs about it.

Conventions:
* Python `datetime` objects (always midnight in this code base) are modelled by
  `PyDate` (a year and a 0-based day-of-year); `PyDate.ord` is the proleptic
  Gregorian ordinal used for date arithmetic, matching Python's
  `date.toordinal` up to a constant offset.
* Python `//` (floor division) is `Int.fdiv`; Python `%` with a positive
  divisor is `Int.emod` (`%` on `Int` here).
* A weekly cell `[value, cloud_persistence]` (value possibly `null`) is
  `Option Int × Int`.
* The JSON/SQLite persistence layer is modelled by a key-value store of
  structured blobs; JSON text encoding of ints/nulls is injective and is not
  re-modelled.
-/

/-- Proleptic Gregorian leap-year test, as implemented by Python's `datetime`. -/
def isLeapYear (y : Int) : Bool :=
  y % 4 == 0 && (y % 100 != 0 || y % 400 == 0)

/-- Number of days in year `y`. -/
def daysInYear (y : Int) : Int := if isLeapYear y then 366 else 365

/-- Days strictly before Jan 1 of year `y`, counted from Jan 1 of year 1
(Python's `date(y,1,1).toordinal() - 1`). -/
def daysBeforeYear (y : Int) : Int :=
  365 * (y - 1) + (y - 1).fdiv 4 - (y - 1).fdiv 100 + (y - 1).fdiv 400

/-- A Python `datetime` at day granularity: a year and a 0-based day of year.
`datetime(y, 1, 1)` is `⟨y, 0⟩` and `datetime(y, 1, 1) + timedelta(days=d)` is
`⟨y, d⟩` as long as `d` stays inside year `y`. -/
structure PyDate where
  year : Int
  doy : Int
deriving DecidableEq, Repr

/-- The ordinal of a date: days since Jan 1 of year 1 (0-based). -/
def PyDate.ord (d : PyDate) : Int := daysBeforeYear d.year + d.doy

/-- `datetime` comparison: lexicographic on (year, day-of-year); agrees with
ordinal comparison on normalized dates. -/
def PyDate.le (a b : PyDate) : Bool :=
  a.year < b.year || (a.year == b.year && a.doy ≤ b.doy)

/-- Python `max(a, b)` on datetimes. -/
def pymax (a b : PyDate) : PyDate := if PyDate.le b a then a else b

/-- Python `min(a, b)` on datetimes. -/
def pymin (a b : PyDate) : PyDate := if PyDate.le a b then a else b

/-- A `PyDate` in the range Python's `datetime` would actually produce. -/
def PyDate.normalized (d : PyDate) : Prop := 0 ≤ d.doy ∧ d.doy < daysInYear d.year

/-- `current_date + timedelta(days=7)` on normalized dates (a 7-day step
crosses at most one year boundary). -/
def addWeek (d : PyDate) : PyDate :=
  if d.doy + 7 < daysInYear d.year then ⟨d.year, d.doy + 7⟩
  else ⟨d.year + 1, d.doy + 7 - daysInYear d.year⟩

/-- `utils.calculate_week_index`: `(date - datetime(year, 1, 1)).days // 7`. -/
def calculate_week_index (date : PyDate) (year : Int) : Int :=
  (date.ord - (PyDate.mk year 0).ord).fdiv 7

/-- `cache_manager.PixelWeeklyData` (the identical dataclass also appears in
`snow_cover_sqlite_archive.py`): one year of weekly
`[pixel_value, cloud_persistence]` pairs. -/
structure PixelWeeklyData where
  year : Int
  data : List (Option Int × Int)
deriving DecidableEq, Repr

/-- `utils.create_empty_year_data`: 53 weeks of `[None, 0]`. -/
def create_empty_year_data (year : Int) : PixelWeeklyData :=
  ⟨year, List.replicate 53 ((none : Option Int), 0)⟩

-- Basic calendar facts -------------------------------------------------------

theorem daysInYear_ge (y : Int) : 365 ≤ daysInYear y := by
  unfold daysInYear; split <;> omega

/-- Model validation: the per-year day count is consistent with the
days-before-year formula. -/
theorem daysBeforeYear_succ (y : Int) :
    daysBeforeYear (y + 1) = daysBeforeYear y + daysInYear y := by
  have hiff : isLeapYear y = true ↔ (y % 4 = 0 ∧ (y % 100 ≠ 0 ∨ y % 400 = 0)) := by
    simp [isLeapYear]
  unfold daysBeforeYear daysInYear
  rw [Int.fdiv_eq_ediv _ (by norm_num), Int.fdiv_eq_ediv _ (by norm_num),
    Int.fdiv_eq_ediv _ (by norm_num), Int.fdiv_eq_ediv _ (by norm_num),
    Int.fdiv_eq_ediv _ (by norm_num), Int.fdiv_eq_ediv _ (by norm_num)]
  by_cases hL : isLeapYear y = true
  · rw [if_pos hL]
    obtain ⟨h4, h100⟩ := hiff.mp hL
    rcases h100 with h100 | h400 <;> omega
  · rw [if_neg hL]
    have h := (not_iff_not.mpr hiff).mp hL
    push_neg at h
    by_cases h4 : y % 4 = 0
    · obtain ⟨h100, h400⟩ := h h4
      omega
    · omega

theorem PyDate.le_iff (a b : PyDate) :
    PyDate.le a b = true ↔ a.year < b.year ∨ (a.year = b.year ∧ a.doy ≤ b.doy) := by
  simp [PyDate.le]

/-- Model validation: stepping a normalized date by a week advances its
ordinal by 7. -/
theorem ord_addWeek (d : PyDate) (h : d.normalized) :
    (addWeek d).ord = d.ord + 7 := by
  obtain ⟨h0, h1⟩ := h
  unfold addWeek
  split <;> simp only [PyDate.ord, daysBeforeYear_succ] <;> omega

theorem addWeek_normalized (d : PyDate) (h : d.normalized) :
    (addWeek d).normalized := by
  obtain ⟨h0, h1⟩ := h
  have h365 := daysInYear_ge d.year
  have h365' := daysInYear_ge (d.year + 1)
  unfold addWeek
  split <;> constructor <;> simp_all <;> omega

theorem iterate_addWeek_normalized (s : PyDate) (h : s.normalized) (k : Nat) :
    (addWeek^[k] s).normalized := by
  induction k with
  | zero => simpa using h
  | succ n ih =>
    rw [Function.iterate_succ_apply']
    exact addWeek_normalized _ ih

-- `cache_manager.PixelCacheManager` ------------------------------------------

namespace PixelCacheManager

/-- A pixel cache key: (tile, pixel_row, pixel_col) — the path
`cache_root/{tile}/{row}/{col}.json`. -/
abbrev PixelKey := String × Int × Int

/-- The JSON value persisted for one pixel: a list of
`{"year": ..., "data": [[value|null, cloud_persistence], ...]}` objects. -/
abbrev Blob := List (Int × List (Option Int × Int))

/-- The cache directory: a key-value view of the JSON files. -/
abbrev Store := PixelKey → Option Blob

/-- Conversion performed by `save_pixel_data`: dataclass → JSON object. -/
def recToJson (r : PixelWeeklyData) : Int × List (Option Int × Int) :=
  (r.year, r.data)

/-- Conversion performed by `load_pixel_data`: JSON object → dataclass. -/
def jsonToRec (p : Int × List (Option Int × Int)) : PixelWeeklyData :=
  ⟨p.1, p.2⟩

/-- `key=lambda x: x.year` ordering used by `load_pixel_data`'s sort. -/
def byYear (a b : PixelWeeklyData) : Prop := a.year ≤ b.year

/-- `key=lambda x: x['year']` ordering used by `save_pixel_data`'s sort. -/
def byFst (a b : Int × List (Option Int × Int)) : Prop := a.1 ≤ b.1

instance : DecidableRel byYear := fun a b => inferInstanceAs (Decidable (a.year ≤ b.year))

instance : DecidableRel byFst := fun a b => inferInstanceAs (Decidable (a.1 ≤ b.1))

instance : IsTotal PixelWeeklyData byYear := ⟨fun a b => le_total a.year b.year⟩

instance : IsTrans PixelWeeklyData byYear := ⟨fun _ _ _ h h' => le_trans h h'⟩

instance : IsTotal (Int × List (Option Int × Int)) byFst := ⟨fun a b => le_total a.1 b.1⟩

instance : IsTrans (Int × List (Option Int × Int)) byFst := ⟨fun _ _ _ h h' => le_trans h h'⟩

/-- `PixelCacheManager.load_pixel_data`: missing file → `[]`; otherwise parse
and sort by year.  (`list.sort` is a stable sort; `insertionSort` with `≤` on
the key is stable as well.) -/
def load_pixel_data (store : Store) (key : PixelKey) : List PixelWeeklyData :=
  match store key with
  | none => []
  | some blob => List.insertionSort byYear (blob.map jsonToRec)

/-- `PixelCacheManager.save_pixel_data`: serialize, sort by year, overwrite the
whole file. -/
def save_pixel_data (store : Store) (key : PixelKey) (recs : List PixelWeeklyData) :
    Store :=
  let blob := List.insertionSort byFst (recs.map recToJson)
  fun k => if k = key then some blob else store k

/-- The `existing_data` dictionary built at the top of
`get_missing_weeks_for_pixel`: `existing_data[year][week_idx] = week_data`
for every week cell whose value is not `None`, in record order then week
order (later writes overwrite earlier ones). -/
def updCell (yy : Int) (p : Nat × (Option Int × Int))
    (acc : Int → Int → Option (Option Int × Int)) :
    Int → Int → Option (Option Int × Int) :=
  if p.2.1.isSome then
    fun y w => if y = yy ∧ w = (p.1 : Int) then some p.2 else acc y w
  else acc

/-- Inner loop of the `existing_data` construction: all weeks of one record. -/
def weekMap (yy : Int) (l : List (Nat × (Option Int × Int)))
    (acc : Int → Int → Option (Option Int × Int)) :
    Int → Int → Option (Option Int × Int) :=
  l.foldl (fun a p => updCell yy p a) acc

/-- The full `existing_data` lookup table. -/
def buildExisting (recs : List PixelWeeklyData) :
    Int → Int → Option (Option Int × Int) :=
  recs.foldl (fun acc rec => weekMap rec.year rec.data.enum acc) (fun _ _ => none)

/-- `range(start_year, end_year + 1)`. -/
def yearRange (a b : Int) : List Int :=
  (List.range (b + 1 - a).toNat).map (fun (k : Nat) => a + (k : Int))

/-- Body of `PixelCacheManager.get_missing_weeks_for_pixel` after the cache
load.  Per year `y` in the requested range the source iterates
`current_date = datetime(y,1,1) + 7*k days` while `current_date <=
year_range_end`; since `year_range_end = min(datetime(y,12,31), end_date)` the
loop runs for at most 53 values of `k`, and because the loop condition is
antitone in `k` the `while` prefix equals the filtered 53-element range used
here.  A week is emitted when it lies inside the requested window and is
either absent from `existing_data` or stored with the retryable code 400. -/
def missingWeeksOfRecords (recs : List PixelWeeklyData) (startD endD : PyDate) :
    List (PyDate × Int) :=
  let existing := buildExisting recs
  (yearRange startD.year endD.year).flatMap (fun y =>
    let yearStart : PyDate := ⟨y, 0⟩
    let yearEnd : PyDate := ⟨y, daysInYear y - 1⟩
    let rangeStart := pymax yearStart startD
    let rangeEnd := pymin yearEnd endD
    (List.range 53).filterMap (fun (k : Nat) =>
      let cur : PyDate := ⟨y, 7 * (k : Int)⟩
      if PyDate.le cur rangeEnd then
        if PyDate.le rangeStart cur then
          match existing y (calculate_week_index cur y) with
          | none => some (cur, calculate_week_index cur y)
          | some cell =>
            if cell.1 = some 400 then some (cur, calculate_week_index cur y)
            else none
        else none
      else none))

/-- `PixelCacheManager.get_missing_weeks_for_pixel`. -/
def get_missing_weeks_for_pixel (store : Store) (key : PixelKey)
    (startD endD : PyDate) : List (PyDate × Int) :=
  missingWeeksOfRecords (load_pixel_data store key) startD endD

/-- `while len(year_data.data) <= week_index: append [None, 0]` followed by
`year_data.data[week_index] = [value, cloud_persistence]`. -/
def setWeek (rec : PixelWeeklyData) (wk : Nat) (cell : Option Int × Int) :
    PixelWeeklyData :=
  let padded := rec.data ++ List.replicate (wk + 1 - rec.data.length) ((none : Option Int), 0)
  ⟨rec.year, padded.set wk cell⟩

/-- Python's find-first-record-with-this-year loop, mutating that record in
place. -/
def replaceFirstYear (y : Int) (f : PixelWeeklyData → PixelWeeklyData) :
    List PixelWeeklyData → List PixelWeeklyData
  | [] => []
  | r :: rs => if r.year = y then f r :: rs else r :: replaceFirstYear y f rs

/-- `PixelCacheManager.update_pixel_week`: load, find-or-create the year
record (a fresh record has 53 empty weeks), set the week cell, save.
`(calculate_week_index date year).toNat` is the Python list index; it is
nonnegative for the normalized dates Python produces. -/
def update_pixel_week (store : Store) (key : PixelKey) (date : PyDate)
    (value : Int) (cloud_persistence : Int) : Store :=
  let recs := load_pixel_data store key
  let y := date.year
  let wk := (calculate_week_index date y).toNat
  let recs' :=
    if recs.any (fun r => r.year == y) then
      replaceFirstYear y (fun r => setWeek r wk ((some value), cloud_persistence)) recs
    else
      recs ++ [setWeek (create_empty_year_data y) wk ((some value), cloud_persistence)]
  save_pixel_data store key recs'

/-- The reset test inside `cleanup_old_error_codes`: the stored value is one
of the requested error codes and the week's calendar date
(`datetime(year,1,1) + week_idx*7 days`, compared here by ordinal) is before
the cutoff. -/
def shouldResetCell (cutoff : PyDate) (codes : List Int) (y : Int) (w : Nat)
    (cell : Option Int × Int) : Bool :=
  (match cell.1 with
   | some v => codes.contains v
   | none => false)
  && decide (daysBeforeYear y + 7 * (w : Int) < cutoff.ord)

/-- One year record after `cleanup_old_error_codes` has visited it. -/
def cleanupYearData (cutoff : PyDate) (codes : List Int) (rec : PixelWeeklyData) :
    PixelWeeklyData :=
  ⟨rec.year, rec.data.enum.map (fun p =>
    if shouldResetCell cutoff codes rec.year p.1 p.2 then ((none : Option Int), 0)
    else p.2)⟩

/-- Whether `cleanup_old_error_codes` reset anything in this record. -/
def yearDataModified (cutoff : PyDate) (codes : List Int) (rec : PixelWeeklyData) :
    Bool :=
  rec.data.enum.any (fun p => shouldResetCell cutoff codes rec.year p.1 p.2)

/-- All records of one pixel after cleanup. -/
def cleanupRecords (cutoff : PyDate) (codes : List Int)
    (recs : List PixelWeeklyData) : List PixelWeeklyData :=
  recs.map (cleanupYearData cutoff codes)

/-- Whether cleanup changed any record of this pixel (`modified` flag). -/
def recordsModified (cutoff : PyDate) (codes : List Int)
    (recs : List PixelWeeklyData) : Bool :=
  recs.any (yearDataModified cutoff codes)

/-- `PixelCacheManager.cleanup_old_error_codes` over the directory listing:
each cached file is loaded, cleaned, and rewritten (via `save_pixel_data`,
which re-sorts) only when the `modified` flag was set; the second component is
the `files_updated` counter. -/
def cleanup_old_error_codes (cutoff : PyDate) (codes : List Int)
    (entries : List (PixelKey × Blob)) : List (PixelKey × Blob) × Nat :=
  (entries.map (fun kb =>
      let recs := List.insertionSort byYear (kb.2.map jsonToRec)
      if recordsModified cutoff codes recs then
        (kb.1, List.insertionSort byFst ((cleanupRecords cutoff codes recs).map recToJson))
      else kb),
   (entries.filter (fun kb =>
      recordsModified cutoff codes (List.insertionSort byYear (kb.2.map jsonToRec)))).length)

end PixelCacheManager

-- `snow_cover_sqlite_archive.SnowCoverSQLiteArchive` --------------------------

namespace SnowCoverSQLiteArchive

/-- The `existing_data` dictionary of the archive's
`get_missing_weeks_for_pixel`: `existing_data[year_data.year] =
year_data.data` for each record in order, so the last record of a year wins. -/
def existingMap (recs : List PixelWeeklyData) : Int → Option (List (Option Int × Int)) :=
  recs.foldl (fun acc rec => fun y => if y = rec.year then some rec.data else acc y)
    (fun _ => none)

/-- Iteration count of `while current_date <= end_date: ...; current_date +=
timedelta(days=7)` starting from `start_date`; exact for normalized dates
because each step advances the ordinal by exactly 7 (`ord_addWeek`). -/
def numIters (s e : PyDate) : Nat :=
  if PyDate.le s e then (e.ord - s.ord).toNat / 7 + 1 else 0

/-- Body of `SnowCoverSQLiteArchive.get_missing_weeks_for_pixel` after the
archive load.  The source walks `current_date` from `start_date` in 7-day
steps; for each it extends the year's data list with `[None, 0]` up to the
week index and reports the week missing exactly when the (possibly padded)
cell's value is `None`.  Unlike the cache-manager version there is no check
for the retryable code 400: any non-null value counts as present. -/
def get_missing_weeks_for_pixel (recs : List PixelWeeklyData) (s e : PyDate) :
    List (PyDate × Int) :=
  (List.range (numIters s e)).filterMap (fun n =>
    match ((existingMap recs (addWeek^[n] s).year).getD
        [])[(calculate_week_index (addWeek^[n] s) (addWeek^[n] s).year).toNat]? with
    | some c =>
      if c.1 = none
      then some (addWeek^[n] s, calculate_week_index (addWeek^[n] s) (addWeek^[n] s).year)
      else none
    | none => some (addWeek^[n] s, calculate_week_index (addWeek^[n] s) (addWeek^[n] s).year))

/-- The archive's key-value store (`SQLiteCacheSync`), keyed by the string
produced by `_create_pixel_key`; values have the same JSON shape as the
cache-manager blobs (`asdict` of the dataclass). -/
abbrev Store := String → Option PixelCacheManager.Blob

/-- `SnowCoverSQLiteArchive._create_pixel_key`:
`f"snow_cover:{tile}:{pixel_row}:{pixel_col}"`. -/
def create_pixel_key (tile : String) (pixel_row pixel_col : Int) : String :=
  "snow_cover:" ++ tile ++ ":" ++ toString pixel_row ++ ":" ++ toString pixel_col

/-- `dataclasses.asdict` on one record: `{"year": ..., "data": ...}`. -/
def asdictRec (r : PixelWeeklyData) : Int × List (Option Int × Int) :=
  (r.year, r.data)

/-- `SnowCoverSQLiteArchive.save_pixel_data`: serialize each record with
`asdict` and `archive.set` the list — in the caller's order, with **no**
sort (unlike the cache manager's save). -/
def save_pixel_data (store : Store) (key : String) (recs : List PixelWeeklyData) :
    Store :=
  fun k => if k = key then some (recs.map asdictRec) else store k

/-- `SnowCoverSQLiteArchive.load_pixel_data`: absent key → `[]`; otherwise
convert the archived objects back to records and sort by year.  (A corrupt
entry is deleted and `[]` returned — not representable in the typed blob
model; the `RuntimeError` for an uninitialized archive is a caller error
outside this model.) -/
def load_pixel_data (store : Store) (key : String) : List PixelWeeklyData :=
  match store key with
  | none => []
  | some blob =>
    List.insertionSort PixelCacheManager.byYear (blob.map PixelCacheManager.jsonToRec)

/-- `SnowCoverSQLiteArchive.discover_existing_pixels`: the source logs
"discover_existing_pixels not implemented for SQLite archive" and returns the
empty dict regardless of the archive contents. -/
def discover_existing_pixels (_archive : List (PixelCacheManager.PixelKey × PixelCacheManager.Blob)) :
    List (String × List (Int × Int)) :=
  []

end SnowCoverSQLiteArchive

-- `constants.py` error codes --------------------------------------------------

def ERROR_OLD_MISSING : Int := 301

def ERROR_RECENT_MISSING : Int := 400

def ERROR_OTHER : Int := 401

-- `data_fetcher.VIIRSDataFetcher` ---------------------------------------------

namespace VIIRSDataFetcher

/-- An obtained tile file, abstracted: `value p` is the extracted raw value
for pixel `p` (`none` when extraction of that pixel fails, covering both the
out-of-bounds `None` and the all-`None` result of an extraction exception);
`cloud p` is the cloud-persistence value (the source substitutes 0 on any
failure). -/
structure HdfTile where
  value : Int × Int → Option Int
  cloud : Int × Int → Int

/-- `VIIRSDataFetcher._is_old_date`: `date < now - timedelta(days=30)`,
compared on day ordinals. -/
def is_old_date (nowOrd dateOrd : Int) : Bool := dateOrd < nowOrd - 30

/-- `VIIRSDataFetcher.process_tile_date`.  `downloaded` is the result of
`download_hdf_file` (`none` = the tile file could not be obtained at all).
On total failure every requested pixel gets the age-dependent error code; on
success each pixel whose value cannot be extracted gets `ERROR_OTHER`.  The
function always returns a result map — failures never escape as exceptions. -/
def process_tile_date (nowOrd dateOrd : Int) (downloaded : Option HdfTile)
    (pixels : List (Int × Int)) : List ((Int × Int) × Int × Int) :=
  match downloaded with
  | none =>
    let error_code := if is_old_date nowOrd dateOrd then ERROR_OLD_MISSING
                      else ERROR_RECENT_MISSING
    pixels.map (fun p => (p, error_code, 0))
  | some hdf =>
    pixels.map (fun p =>
      match hdf.value p with
      | some v => (p, v, hdf.cloud p)
      | none => (p, ERROR_OTHER, 0))

end VIIRSDataFetcher

-- `fetch_snow_data.VIIRSSnowDataProcessor` (fill-cache mode) ------------------

namespace VIIRSSnowDataProcessor

/-- The methods defined on `cache_manager.PixelCacheManager` (its complete
class body). -/
def pixelCacheManagerMethods : List String :=
  [r"__init__", r"get_pixel_cache_path", r"load_pixel_data", r"save_pixel_data",
   r"get_missing_weeks_for_pixel", r"update_pixel_week", r"get_cache_stats",
   r"cleanup_old_error_codes"]

/-- The attribute name `run` invokes in fill-cache mode. -/
def discoverAttrName : String := "discover_existing_pixels"

/-- Models the attribute resolution of
`self.cache_manager.discover_existing_pixels` in `VIIRSSnowDataProcessor.run`
(fetch_snow_data.py line 231): `self.cache_manager` is a `PixelCacheManager`,
so the lookup succeeds only if the class defines that method; otherwise Python
raises `AttributeError`. -/
def fillCacheDiscoverLookup : Option Unit :=
  if discoverAttrName ∈ pixelCacheManagerMethods then some () else none

/-- `VIIRSSnowDataProcessor.run` with `fill_cache_mode=True`.  The whole body
runs inside `try: ... except Exception: return False`, and the first statement
is the attribute call modelled by `fillCacheDiscoverLookup`, so a failed
lookup makes `run` return `False` for every cache state.  The `some` branch
(returning `true`) stands for the never-reached remainder of `run`, which
would process the discovered pixels. -/
def run_fill_cache (_store : List (PixelCacheManager.PixelKey × PixelCacheManager.Blob)) :
    Bool :=
  match fillCacheDiscoverLookup with
  | none => false
  | some _ => true

end VIIRSSnowDataProcessor

-- `pixel_extractor.VIIRSPixelExtractor` ---------------------------------------

namespace VIIRSPixelExtractor

/-- `constants.PIXEL_SIZE` (float constants modelled by exact rationals). -/
def PIXEL_SIZE : ℚ := 375.0

/-- `constants.TILE_SIZE_METERS`. -/
def TILE_SIZE_METERS : ℚ := 1111950.519667

/-- `constants.PIXELS_PER_TILE`. -/
def PIXELS_PER_TILE : Int := 3000

/-- `constants.GLOBAL_WIDTH`. -/
def GLOBAL_WIDTH : ℚ := 20015109.354 * 2

/-- `constants.GLOBAL_HEIGHT`. -/
def GLOBAL_HEIGHT : ℚ := 10007554.677 * 2

/-- Python `int(...)` on a float: truncation toward zero. -/
def pyTrunc (q : ℚ) : Int := if 0 ≤ q then ⌊q⌋ else ⌈q⌉

/-- The tile/pixel part of the dictionary returned by
`sinusoidal_to_tile_and_pixel` (the `tile` string `h{h:02d}v{v:02d}` is
determined by `h_tile`/`v_tile` and the echoed input coordinates carry no
information, so they are omitted). -/
structure TilePixel where
  h_tile : Int
  v_tile : Int
  pixel_col : Int
  pixel_row : Int
deriving DecidableEq, Repr

/-- `VIIRSPixelExtractor.sinusoidal_to_tile_and_pixel`. -/
def sinusoidal_to_tile_and_pixel (x y : ℚ) : TilePixel :=
  let h_tile0 := pyTrunc ((x + GLOBAL_WIDTH / 2) / TILE_SIZE_METERS)
  let v_tile0 := pyTrunc ((GLOBAL_HEIGHT / 2 - y) / TILE_SIZE_METERS)
  let h_tile := max 0 (min 35 h_tile0)
  let v_tile := max 0 (min 17 v_tile0)
  let tile_left := (h_tile : ℚ) * TILE_SIZE_METERS - GLOBAL_WIDTH / 2
  let tile_top := GLOBAL_HEIGHT / 2 - (v_tile : ℚ) * TILE_SIZE_METERS
  let col := pyTrunc ((x - tile_left) / PIXEL_SIZE)
  let row := pyTrunc ((tile_top - y) / PIXEL_SIZE)
  ⟨h_tile, v_tile, max 0 (min (PIXELS_PER_TILE - 1) col),
    max 0 (min (PIXELS_PER_TILE - 1) row)⟩

/-- A geometry after projection to sinusoidal coordinates, abstracted to what
`get_geometry_pixel_coordinates` consumes: its bounding box, the
`geometry.intersects(pixel_polygon)` test (a pixel's polygon is determined by
its centre, which is what is passed here), and its centroid.  Any valid
non-empty shapely geometry provides all of these. -/
structure GeomInput where
  minx : ℚ
  miny : ℚ
  maxx : ℚ
  maxy : ℚ
  intersects : ℚ → ℚ → Bool
  centroidx : ℚ
  centroidy : ℚ

/-- `range(a, b + 1)` over integers. -/
def intRange (a b : Int) : List Int :=
  (List.range (b + 1 - a).toNat).map (fun (k : Nat) => a + (k : Int))

/-- The candidate-pixel scan of `get_geometry_pixel_coordinates`: every tile
between the bounding box's corner tiles, every pixel in the bounding box's
padded sub-range of that tile, kept when its cell polygon intersects the
geometry (duplicates are produced here and removed by `dedupFirst`, matching
the `processed_pixels` set keyed by tile/col/row). -/
def candidateCells (g : GeomInput) : List TilePixel :=
  let minInfo := sinusoidal_to_tile_and_pixel g.minx g.maxy
  let maxInfo := sinusoidal_to_tile_and_pixel g.maxx g.miny
  (intRange minInfo.h_tile maxInfo.h_tile).flatMap (fun (h : Int) =>
    (intRange minInfo.v_tile maxInfo.v_tile).flatMap (fun (v : Int) =>
      let tile_left := (h : ℚ) * TILE_SIZE_METERS - GLOBAL_WIDTH / 2
      let tile_top := GLOBAL_HEIGHT / 2 - (v : ℚ) * TILE_SIZE_METERS
      let test_min_col := max 0 (pyTrunc ((g.minx - tile_left) / PIXEL_SIZE) - 1)
      let test_max_col := min (PIXELS_PER_TILE - 1) (pyTrunc ((g.maxx - tile_left) / PIXEL_SIZE) + 1)
      let test_min_row := max 0 (pyTrunc ((tile_top - g.maxy) / PIXEL_SIZE) - 1)
      let test_max_row := min (PIXELS_PER_TILE - 1) (pyTrunc ((tile_top - g.miny) / PIXEL_SIZE) + 1)
      (intRange test_min_row test_max_row).flatMap (fun (row : Int) =>
        (intRange test_min_col test_max_col).filterMap (fun (col : Int) =>
          let pixel_x := tile_left + ((col : ℚ) + 0.5) * PIXEL_SIZE
          let pixel_y := tile_top - ((row : ℚ) + 0.5) * PIXEL_SIZE
          if g.intersects pixel_x pixel_y then some ⟨h, v, col, row⟩ else none))))

/-- First-occurrence deduplication (the `processed_pixels` check). -/
def dedupFirst (seen : List TilePixel) : List TilePixel → List TilePixel
  | [] => []
  | x :: xs => if x ∈ seen then dedupFirst seen xs else x :: dedupFirst (x :: seen) xs

/-- The centroid-fallback pixel. -/
def centroidPixel (g : GeomInput) : TilePixel :=
  sinusoidal_to_tile_and_pixel g.centroidx g.centroidy

/-- `VIIRSPixelExtractor.get_geometry_pixel_coordinates`: the deduplicated
candidate scan, or the centroid's pixel when the scan found nothing. -/
def get_geometry_pixel_coordinates (g : GeomInput) : List TilePixel :=
  let pixel_coords := dedupFirst [] (candidateCells g)
  if pixel_coords.isEmpty then [centroidPixel g] else pixel_coords

end VIIRSPixelExtractor

-- Helper lemmas ---------------------------------------------------------------

theorem clamp_pyTrunc (q : ℚ) (hi : Int) (hhi : 0 ≤ hi) :
    max 0 (min hi (VIIRSPixelExtractor.pyTrunc q)) = max 0 (min hi ⌊q⌋) := by
  unfold VIIRSPixelExtractor.pyTrunc
  split
  · rfl
  · rename_i h
    have hq : q ≤ 0 := le_of_lt (not_le.mp h)
    have h1 : ⌈q⌉ ≤ (0 : ℤ) := Int.ceil_le.mpr (by exact_mod_cast hq)
    have h2 : ⌊q⌋ ≤ ⌈q⌉ := Int.floor_le_ceil q
    omega

/-- C4: For every (exactly-represented) input `(x, y)`,
`sinusoidal_to_tile_and_pixel` returns, without any error path, an `h_tile`
equal to `floor((x + GLOBAL_WIDTH/2) / TILE_SIZE_METERS)` clamped to `[0,35]`,
a `v_tile` equal to `floor((GLOBAL_HEIGHT/2 - y) / TILE_SIZE_METERS)` clamped
to `[0,17]`, and `pixel_col`, `pixel_row` in `[0,2999]`; in particular
`h_tile` is never outside `[0,35]` and `v_tile` never outside `[0,17]`.
(The source truncates toward zero before clamping; clamped truncation equals
clamped floor, see `clamp_pyTrunc`.) -/
theorem sinusoidal_to_tile_and_pixel_clamped (x y : ℚ) :
    (VIIRSPixelExtractor.sinusoidal_to_tile_and_pixel x y).h_tile
      = max 0 (min 35 ⌊(x + VIIRSPixelExtractor.GLOBAL_WIDTH / 2) / VIIRSPixelExtractor.TILE_SIZE_METERS⌋)
    ∧ (VIIRSPixelExtractor.sinusoidal_to_tile_and_pixel x y).v_tile
      = max 0 (min 17 ⌊(VIIRSPixelExtractor.GLOBAL_HEIGHT / 2 - y) / VIIRSPixelExtractor.TILE_SIZE_METERS⌋)
    ∧ 0 ≤ (VIIRSPixelExtractor.sinusoidal_to_tile_and_pixel x y).h_tile
    ∧ (VIIRSPixelExtractor.sinusoidal_to_tile_and_pixel x y).h_tile ≤ 35
    ∧ 0 ≤ (VIIRSPixelExtractor.sinusoidal_to_tile_and_pixel x y).v_tile
    ∧ (VIIRSPixelExtractor.sinusoidal_to_tile_and_pixel x y).v_tile ≤ 17
    ∧ 0 ≤ (VIIRSPixelExtractor.sinusoidal_to_tile_and_pixel x y).pixel_col
    ∧ (VIIRSPixelExtractor.sinusoidal_to_tile_and_pixel x y).pixel_col ≤ 2999
    ∧ 0 ≤ (VIIRSPixelExtractor.sinusoidal_to_tile_and_pixel x y).pixel_row
    ∧ (VIIRSPixelExtractor.sinusoidal_to_tile_and_pixel x y).pixel_row ≤ 2999 := by
  simp only [VIIRSPixelExtractor.sinusoidal_to_tile_and_pixel,
    VIIRSPixelExtractor.PIXELS_PER_TILE]
  refine ⟨clamp_pyTrunc _ _ (by norm_num), clamp_pyTrunc _ _ (by norm_num),
    ?_, ?_, ?_, ?_, ?_, ?_, ?_, ?_⟩ <;> omega

/-- C10: `get_geometry_pixel_coordinates` never returns an empty list: the
result is the deduplicated candidate scan when that is non-empty, and the
single pixel containing the geometry's centroid otherwise. -/
theorem get_geometry_pixel_coordinates_nonempty (g : VIIRSPixelExtractor.GeomInput) :
    VIIRSPixelExtractor.get_geometry_pixel_coordinates g ≠ []
    ∧ VIIRSPixelExtractor.get_geometry_pixel_coordinates g
      = (if VIIRSPixelExtractor.dedupFirst [] (VIIRSPixelExtractor.candidateCells g) = []
         then [VIIRSPixelExtractor.centroidPixel g]
         else VIIRSPixelExtractor.dedupFirst [] (VIIRSPixelExtractor.candidateCells g)) := by
  constructor
  · simp only [VIIRSPixelExtractor.get_geometry_pixel_coordinates]
    split
    · simp
    · rename_i hi
      exact fun hc => hi (by simp [hc])
  · simp only [VIIRSPixelExtractor.get_geometry_pixel_coordinates]
    split
    · rename_i hi
      rw [if_pos (List.isEmpty_iff.mp hi)]
    · rename_i hi
      rw [if_neg (fun hc => hi (by simp [hc]))]

theorem save_pixel_data_same (store : PixelCacheManager.Store)
    (key : PixelCacheManager.PixelKey) (recs : List PixelWeeklyData) :
    PixelCacheManager.save_pixel_data store key recs key
      = some (List.insertionSort PixelCacheManager.byFst
          (recs.map PixelCacheManager.recToJson)) := by
  unfold PixelCacheManager.save_pixel_data
  simp

/-- C6 (amended): every `PixelCacheManager.save_pixel_data` call persists a
blob sorted ascending by year and every `load_pixel_data` call (in both
implementations) returns records sorted ascending by year, whatever order the
input records or the stored blob were in; but
`SnowCoverSQLiteArchive.save_pixel_data` persists the records exactly in the
caller's order, without sorting, so its persisted entry is year-sorted only
when the input list already was. -/
theorem save_and_load_year_sorted :
    (∀ (store : PixelCacheManager.Store) (key : PixelCacheManager.PixelKey)
       (recs : List PixelWeeklyData),
       List.Pairwise PixelCacheManager.byFst
         ((PixelCacheManager.save_pixel_data store key recs key).getD []))
    ∧ (∀ (store : PixelCacheManager.Store) (key : PixelCacheManager.PixelKey),
       List.Pairwise PixelCacheManager.byYear
         (PixelCacheManager.load_pixel_data store key))
    ∧ (∀ (store : SnowCoverSQLiteArchive.Store) (key : String),
       List.Pairwise PixelCacheManager.byYear
         (SnowCoverSQLiteArchive.load_pixel_data store key))
    ∧ (∀ (store : SnowCoverSQLiteArchive.Store) (key : String)
         (recs : List PixelWeeklyData),
       SnowCoverSQLiteArchive.save_pixel_data store key recs key
         = some (recs.map SnowCoverSQLiteArchive.asdictRec))
    ∧ (∀ (store : SnowCoverSQLiteArchive.Store) (key : String)
         (recs : List PixelWeeklyData),
       List.Pairwise PixelCacheManager.byYear recs →
       List.Pairwise PixelCacheManager.byFst
         ((SnowCoverSQLiteArchive.save_pixel_data store key recs key).getD [])) := by
  refine ⟨?_, ?_, ?_, ?_, ?_⟩
  · intro store key recs
    rw [save_pixel_data_same, Option.getD_some]
    exact List.sorted_insertionSort PixelCacheManager.byFst _
  · intro store key
    unfold PixelCacheManager.load_pixel_data
    cases store key with
    | none => exact List.Pairwise.nil
    | some blob => exact List.sorted_insertionSort PixelCacheManager.byYear _
  · intro store key
    unfold SnowCoverSQLiteArchive.load_pixel_data
    cases store key with
    | none => exact List.Pairwise.nil
    | some blob => exact List.sorted_insertionSort PixelCacheManager.byYear _
  · intro store key recs
    unfold SnowCoverSQLiteArchive.save_pixel_data
    simp
  · intro store key recs hsorted
    unfold SnowCoverSQLiteArchive.save_pixel_data
    rw [if_pos rfl, Option.getD_some]
    exact hsorted.map SnowCoverSQLiteArchive.asdictRec (fun a b h => h)

/-- The empty SQLite archive. -/
def sqEmptyStore : SnowCoverSQLiteArchive.Store := fun _ => none

/-- Two records already in ascending year order. -/
def sortedRecsPair : List PixelWeeklyData := [⟨2024, []⟩, ⟨2025, []⟩]

/-- The tile name used in the archive-key examples. -/
def sqTileName : String := "h18v04" 

theorem save_and_load_year_sorted_witness :
    List.Pairwise PixelCacheManager.byYear sortedRecsPair
    ∧ List.Pairwise PixelCacheManager.byFst
        ((SnowCoverSQLiteArchive.save_pixel_data sqEmptyStore
            (SnowCoverSQLiteArchive.create_pixel_key sqTileName 1500 1000) sortedRecsPair
            (SnowCoverSQLiteArchive.create_pixel_key sqTileName 1500 1000)).getD []) :=
  ⟨by decide,
    save_and_load_year_sorted.2.2.2.2 sqEmptyStore
      (SnowCoverSQLiteArchive.create_pixel_key sqTileName 1500 1000) sortedRecsPair
      (by decide)⟩

/-- C6 counterexample: the claim as stated fails on
`SnowCoverSQLiteArchive.save_pixel_data`: saving the records of years 2025 and
2024 in that order persists them unsorted, so the persisted entry is not
ascending by year for every input order. -/
theorem sqlite_save_not_year_sorted :
    ¬ List.Pairwise PixelCacheManager.byFst
        ((SnowCoverSQLiteArchive.save_pixel_data sqEmptyStore
            (SnowCoverSQLiteArchive.create_pixel_key sqTileName 1500 1000)
            [⟨2025, []⟩, ⟨2024, []⟩]
            (SnowCoverSQLiteArchive.create_pixel_key sqTileName 1500 1000)).getD []) := by
  decide

/-- C7: `save_pixel_data` then `load_pixel_data` on the same key returns
exactly the input records sorted ascending by year; serialization preserves
every year number and every `[value, cloud_persistence]` pair, nulls
included. -/
theorem save_then_load_roundtrip (store : PixelCacheManager.Store)
    (key : PixelCacheManager.PixelKey) (recs : List PixelWeeklyData) :
    PixelCacheManager.load_pixel_data (PixelCacheManager.save_pixel_data store key recs) key
      = List.insertionSort PixelCacheManager.byYear recs := by
  unfold PixelCacheManager.load_pixel_data
  rw [save_pixel_data_same]
  show List.insertionSort PixelCacheManager.byYear
      ((List.insertionSort PixelCacheManager.byFst
        (recs.map PixelCacheManager.recToJson)).map PixelCacheManager.jsonToRec)
    = List.insertionSort PixelCacheManager.byYear recs
  rw [List.map_insertionSort PixelCacheManager.byFst PixelCacheManager.byYear
    PixelCacheManager.jsonToRec _ (fun a _ b _ => Iff.rfl)]
  have hmm : (recs.map PixelCacheManager.recToJson).map PixelCacheManager.jsonToRec = recs := by
    rw [List.map_map]
    exact List.map_id'' (fun r => rfl) recs
  rw [hmm]
  exact ((List.sorted_insertionSort PixelCacheManager.byYear recs).insertionSort_eq)

/-- The empty cache: no file exists for any pixel. -/
def emptyStore : PixelCacheManager.Store := fun _ => none

/-- The tile name used by the test scenario. -/
def tileH18V04 : String := "h18v04"

/-- The pixel (h18v04, row 1500, col 1000) of the test scenario. -/
def scenarioKey : PixelCacheManager.PixelKey := (tileH18V04, 1500, 1000)

/-- C8: starting from no stored data, `update_pixel_week` with 2024-01-01
(`⟨2024, 0⟩`), value 85, cloud persistence 0, then 2024-01-08 (`⟨2024, 7⟩`),
value 92, cloud persistence 1, makes `load_pixel_data` return exactly one
yearly record for 2024 whose week 0 is `[85, 0]`, week 1 is `[92, 1]`, and
whose remaining 51 of the 53 slots created with the record are `[null, 0]`. -/
theorem update_pixel_week_scenario :
    PixelCacheManager.load_pixel_data
      (PixelCacheManager.update_pixel_week
        (PixelCacheManager.update_pixel_week emptyStore scenarioKey ⟨2024, 0⟩ 85 0)
        scenarioKey ⟨2024, 7⟩ 92 1)
      scenarioKey
    = [⟨2024, ((some 85 : Option Int), 0) :: ((some 92 : Option Int), 1)
          :: List.replicate 51 ((none : Option Int), 0)⟩] := by
  decide

/-- C5: when the tile file for a date cannot be obtained at all,
`process_tile_date` assigns every requested pixel `(301, 0)` if the date is
older than 30 days before now and `(400, 0)` otherwise — by returning a
normal result map, never by raising; when the tile is obtained, the result
has exactly one entry per requested pixel, and that entry is `(401, 0)` when
the pixel's value cannot be extracted and `(value, cloud_persistence)`
otherwise — so `(401, 0)` goes to the failing pixel alone. -/
theorem process_tile_date_error_paths (nowOrd dateOrd : Int)
    (pixels : List (Int × Int)) :
    VIIRSDataFetcher.process_tile_date nowOrd dateOrd none pixels
      = pixels.map (fun p => (p,
          (if VIIRSDataFetcher.is_old_date nowOrd dateOrd then ERROR_OLD_MISSING
           else ERROR_RECENT_MISSING), 0))
    ∧ VIIRSDataFetcher.is_old_date nowOrd dateOrd = decide (dateOrd < nowOrd - 30)
    ∧ (∀ (hdf : VIIRSDataFetcher.HdfTile) (p : Int × Int), p ∈ pixels →
        hdf.value p = none →
        (p, ERROR_OTHER, (0 : Int))
          ∈ VIIRSDataFetcher.process_tile_date nowOrd dateOrd (some hdf) pixels)
    ∧ (∀ (hdf : VIIRSDataFetcher.HdfTile) (j : Nat) (p : Int × Int),
        pixels[j]? = some p →
        (VIIRSDataFetcher.process_tile_date nowOrd dateOrd (some hdf) pixels)[j]?
          = some (p, match hdf.value p with
                     | some v => (v, hdf.cloud p)
                     | none => (ERROR_OTHER, (0 : Int))))
    ∧ (∀ (hdf : VIIRSDataFetcher.HdfTile),
        (VIIRSDataFetcher.process_tile_date nowOrd dateOrd (some hdf) pixels).length
          = pixels.length) := by
  refine ⟨rfl, rfl, ?_, ?_, ?_⟩
  · intro hdf p hp hv
    unfold VIIRSDataFetcher.process_tile_date
    exact List.mem_map.mpr ⟨p, hp, by simp [hv]⟩
  · intro hdf j p hj
    unfold VIIRSDataFetcher.process_tile_date
    rw [List.getElem?_map, hj, Option.map_some']
    rcases hv : hdf.value p with _ | v <;> rfl
  · intro hdf
    unfold VIIRSDataFetcher.process_tile_date
    exact List.length_map _ _

/-- Witness inputs for C5: a tile file whose extraction always fails, and one
that succeeds on pixel (0, 0) with value 42 / cloud persistence 9 but fails on
pixel (1500, 1000). -/
def hdfAllFail : VIIRSDataFetcher.HdfTile :=
  ⟨fun _ => none, fun _ => 0⟩

def hdfMixed : VIIRSDataFetcher.HdfTile :=
  ⟨fun p => if p = ((0 : Int), (0 : Int)) then some 42 else none, fun _ => 9⟩

def pixelPairList : List (Int × Int) := [((0 : Int), (0 : Int)), ((1500 : Int), (1000 : Int))]

theorem process_tile_date_error_paths_witness :
    (((1500 : Int), (1000 : Int)) ∈ pixelPairList)
    ∧ hdfMixed.value ((1500 : Int), (1000 : Int)) = none
    ∧ ((((1500 : Int), (1000 : Int)), ERROR_OTHER, (0 : Int))
        ∈ VIIRSDataFetcher.process_tile_date 100 50 (some hdfMixed) pixelPairList)
    ∧ (pixelPairList[0]? = some ((0 : Int), (0 : Int)))
    ∧ ((VIIRSDataFetcher.process_tile_date 100 50 (some hdfMixed) pixelPairList)[0]?
        = some (((0 : Int), (0 : Int)), (42 : Int), (9 : Int)))
    ∧ (pixelPairList[1]? = some ((1500 : Int), (1000 : Int)))
    ∧ ((VIIRSDataFetcher.process_tile_date 100 50 (some hdfMixed) pixelPairList)[1]?
        = some (((1500 : Int), (1000 : Int)), ERROR_OTHER, (0 : Int)))
    ∧ hdfAllFail.value ((1500 : Int), (1000 : Int)) = none
    ∧ ((((1500 : Int), (1000 : Int)), ERROR_OTHER, (0 : Int))
        ∈ VIIRSDataFetcher.process_tile_date 100 50 (some hdfAllFail)
            [((1500 : Int), (1000 : Int))]) :=
  ⟨by decide, by decide,
    (process_tile_date_error_paths 100 50 pixelPairList).2.2.1
      hdfMixed ((1500 : Int), (1000 : Int)) (by decide) (by decide),
    by decide,
    ((process_tile_date_error_paths 100 50 pixelPairList).2.2.2.1
      hdfMixed 0 ((0 : Int), (0 : Int)) (by decide)).trans (by decide),
    by decide,
    ((process_tile_date_error_paths 100 50 pixelPairList).2.2.2.1
      hdfMixed 1 ((1500 : Int), (1000 : Int)) (by decide)).trans (by decide),
    rfl,
    (process_tile_date_error_paths 100 50 [((1500 : Int), (1000 : Int))]).2.2.1
      hdfAllFail ((1500 : Int), (1000 : Int)) (by decide) rfl⟩

/-- C2 (code bug): in fill-cache mode `run` never enumerates the pixel keys
present in the store.  `PixelCacheManager` defines no
`discover_existing_pixels` attribute, so the lookup fails (`AttributeError`),
the surrounding `except Exception` swallows it, and `run` returns `False` for
every cache state; even the `SnowCoverSQLiteArchive` implementation of
`discover_existing_pixels` returns the empty dict for every archive. -/
theorem fill_cache_mode_never_discovers :
    VIIRSSnowDataProcessor.fillCacheDiscoverLookup = none
    ∧ (∀ store, VIIRSSnowDataProcessor.run_fill_cache store = false)
    ∧ (∀ archive, SnowCoverSQLiteArchive.discover_existing_pixels archive = []) := by
  refine ⟨by decide, fun store => ?_, fun archive => rfl⟩
  unfold VIIRSSnowDataProcessor.run_fill_cache
  rw [show VIIRSSnowDataProcessor.fillCacheDiscoverLookup = none from by decide]

-- Helpers for the gap-detection proofs ----------------------------------------

theorem filterMap_eq_map_of {α β : Type _} (f : α → Option β) (g : α → β) :
    ∀ (l : List α), (∀ a ∈ l, f a = some (g a)) → l.filterMap f = l.map g
  | [], _ => rfl
  | a :: l, h => by
    rw [List.filterMap_cons, h a (List.mem_cons_self a l), List.map_cons,
      filterMap_eq_map_of f g l (fun b hb => h b (List.mem_cons_of_mem a hb))]

theorem yearRange_self (y : Int) : PixelCacheManager.yearRange y y = [y] := by
  unfold PixelCacheManager.yearRange
  rw [show y + 1 - y = 1 by ring, show ((1 : Int)).toNat = 1 from rfl,
    show List.range 1 = [0] from rfl]
  simp

theorem pymax_self (a : PyDate) : pymax a a = a := by
  unfold pymax
  rw [if_pos ((PyDate.le_iff a a).mpr (Or.inr ⟨rfl, le_refl _⟩))]

theorem pymin_self (a : PyDate) : pymin a a = a := by
  unfold pymin
  rw [if_pos ((PyDate.le_iff a a).mpr (Or.inr ⟨rfl, le_refl _⟩))]

theorem calculate_week_index_jan1 (y n : Int) :
    calculate_week_index ⟨y, n⟩ y = n.fdiv 7 := by
  simp [calculate_week_index, PyDate.ord]

theorem seven_mul_fdiv (n : Int) : (7 * n).fdiv 7 = n := by
  rw [Int.fdiv_eq_ediv _ (by norm_num)]
  omega

theorem buildExisting_nil : PixelCacheManager.buildExisting [] = fun _ _ => none := rfl

/-- C3: for a pixel with no stored data and any year `Y`,
`get_missing_weeks_for_pixel(key, Jan 1 of Y, Dec 31 of Y)` returns exactly 53
entries, one per week index 0–52, in ascending order, the `k`-th entry's date
being Jan 1 of `Y` plus `7*k` days. -/
theorem missing_weeks_empty_pixel_full_year (key : PixelCacheManager.PixelKey) (Y : Int) :
    PixelCacheManager.get_missing_weeks_for_pixel emptyStore key
        ⟨Y, 0⟩ ⟨Y, daysInYear Y - 1⟩
      = (List.range 53).map (fun (k : Nat) => (PyDate.mk Y (7 * (k : Int)), (k : Int))) := by
  have hload : PixelCacheManager.load_pixel_data emptyStore key = [] := rfl
  unfold PixelCacheManager.get_missing_weeks_for_pixel
  rw [hload]
  simp only [PixelCacheManager.missingWeeksOfRecords, buildExisting_nil, yearRange_self,
    List.flatMap_cons, List.flatMap_nil, List.append_nil, pymax_self, pymin_self]
  apply filterMap_eq_map_of
  intro k hk
  have hk53 : k < 53 := by simpa using hk
  have hdiy := daysInYear_ge Y
  rw [if_pos (show PyDate.le ⟨Y, 7 * (k : Int)⟩ ⟨Y, daysInYear Y - 1⟩ = true from
        (PyDate.le_iff _ _).mpr (Or.inr ⟨rfl,
          show (7 : Int) * (k : Int) ≤ daysInYear Y - 1 by omega⟩)),
    if_pos (show PyDate.le ⟨Y, 0⟩ ⟨Y, 7 * (k : Int)⟩ = true from
        (PyDate.le_iff _ _).mpr (Or.inr ⟨rfl,
          show (0 : Int) ≤ 7 * (k : Int) by omega⟩))]
  rw [calculate_week_index_jan1, seven_mul_fdiv]

/-- C9: `cleanup_old_error_codes` resets to `[null, 0]` exactly those week
cells whose stored value is in `codes` and whose computed calendar date
(Jan 1 of the record's year plus `7 * week_index` days) is before the cutoff;
every other cell is kept unchanged, and an entry whose records contain no such
cell is not rewritten in the store. -/
theorem cleanup_old_error_codes_resets_exactly
    (cutoff : PyDate) (codes : List Int) (recs : List PixelWeeklyData)
    (i w : Nat) (rec : PixelWeeklyData) (cell : Option Int × Int)
    (hrec : recs[i]? = some rec) (hcell : rec.data[w]? = some cell) :
    ((PixelCacheManager.cleanupRecords cutoff codes recs)[i]?
        = some (PixelCacheManager.cleanupYearData cutoff codes rec)
      ∧ (PixelCacheManager.cleanupYearData cutoff codes rec).data[w]?
        = some (if ((match cell.1 with
                     | some v => codes.contains v
                     | none => false)
                    && decide (daysBeforeYear rec.year + 7 * (w : Int) < cutoff.ord))
                then ((none : Option Int), 0) else cell))
    ∧ (∀ (entries : List (PixelCacheManager.PixelKey × PixelCacheManager.Blob)) (j : Nat)
        (kb : PixelCacheManager.PixelKey × PixelCacheManager.Blob),
        entries[j]? = some kb →
        PixelCacheManager.recordsModified cutoff codes
          (List.insertionSort PixelCacheManager.byYear
            (kb.2.map PixelCacheManager.jsonToRec)) = false →
        (PixelCacheManager.cleanup_old_error_codes cutoff codes entries).1[j]? = some kb) := by
  refine ⟨⟨?_, ?_⟩, ?_⟩
  · simp [PixelCacheManager.cleanupRecords, List.getElem?_map, hrec]
  · simp [PixelCacheManager.cleanupYearData, List.getElem?_map, List.getElem?_enum,
      hcell, PixelCacheManager.shouldResetCell]
  · intro entries j kb hj hmod
    simp only [PixelCacheManager.cleanup_old_error_codes, List.getElem?_map, hj,
      Option.map_some']
    rw [if_neg (by rw [hmod]; exact Bool.false_ne_true)]

/-- Cutoff 2024-06-01 (day-of-year 152 of the leap year 2024). -/
def cutoffJune2024 : PyDate := ⟨2024, 152⟩

/-- A 2024 record with a retryable error in week 0 (dated 2024-01-01) and in
week 47 (the week slot of 2024-12-01 observations). -/
def recWith400 : PixelWeeklyData :=
  ⟨2024, ((some 400 : Option Int), 5) ::
    (List.replicate 46 ((none : Option Int), 0) ++ [((some 400 : Option Int), 3)])⟩

theorem cleanup_old_error_codes_resets_exactly_witness :
    ([recWith400][0]? = some recWith400)
    ∧ (recWith400.data[0]? = some ((some 400 : Option Int), 5))
    ∧ (recWith400.data[47]? = some ((some 400 : Option Int), 3))
    ∧ ((PixelCacheManager.cleanupYearData cutoffJune2024 [400] recWith400).data[0]?
        = some ((none : Option Int), 0))
    ∧ ((PixelCacheManager.cleanupYearData cutoffJune2024 [400] recWith400).data[47]?
        = some ((some 400 : Option Int), 3)) :=
  ⟨by decide, by decide, by decide,
    ((cleanup_old_error_codes_resets_exactly cutoffJune2024 [400] [recWith400] 0 0
        recWith400 ((some 400 : Option Int), 5) (by decide) (by decide)).1.2).trans
      (by decide),
    ((cleanup_old_error_codes_resets_exactly cutoffJune2024 [400] [recWith400] 0 47
        recWith400 ((some 400 : Option Int), 3) (by decide) (by decide)).1.2).trans
      (by decide)⟩

-- Characterizing the `existing_data` lookup tables ----------------------------

theorem weekMap_acc_ne_year (yy y w : Int) (hne : yy ≠ y) :
    ∀ (l : List (Nat × (Option Int × Int))) (acc : Int → Int → Option (Option Int × Int)),
      PixelCacheManager.weekMap yy l acc y w = acc y w
  | [], _ => rfl
  | p :: l, acc => by
    show PixelCacheManager.weekMap yy l (PixelCacheManager.updCell yy p acc) y w = acc y w
    rw [weekMap_acc_ne_year yy y w hne l (PixelCacheManager.updCell yy p acc)]
    unfold PixelCacheManager.updCell
    split
    · exact if_neg (fun h => hne h.1.symm)
    · rfl

theorem weekMap_acc_ne_idx (yy y w : Int) :
    ∀ (l : List (Nat × (Option Int × Int))), (∀ p ∈ l, (p.1 : Int) ≠ w) →
      ∀ (acc : Int → Int → Option (Option Int × Int)),
        PixelCacheManager.weekMap yy l acc y w = acc y w
  | [], _, _ => rfl
  | p :: l, hw, acc => by
    show PixelCacheManager.weekMap yy l (PixelCacheManager.updCell yy p acc) y w = acc y w
    rw [weekMap_acc_ne_idx yy y w l (fun q hq => hw q (List.mem_cons_of_mem p hq))
      (PixelCacheManager.updCell yy p acc)]
    unfold PixelCacheManager.updCell
    split
    · exact if_neg (fun h => hw p (List.mem_cons_self p l) h.2.symm)
    · rfl

theorem weekMap_enumFrom_get (yy : Int) :
    ∀ (l : List (Option Int × Int)) (n wn : Nat) (cell : Option Int × Int),
      l[wn]? = some cell →
      ∀ (acc : Int → Int → Option (Option Int × Int)),
        PixelCacheManager.weekMap yy (List.enumFrom n l) acc yy ((n + wn : Nat) : Int)
          = if cell.1.isSome then some cell else acc yy ((n + wn : Nat) : Int)
  | [], n, wn, cell, hcell, acc => by simp at hcell
  | c :: l, n, 0, cell, hcell, acc => by
    have hc : c = cell := by simpa using hcell
    subst hc
    show PixelCacheManager.weekMap yy (List.enumFrom (n + 1) l)
        (PixelCacheManager.updCell yy (n, c) acc) yy ((n + 0 : Nat) : Int)
      = if c.1.isSome then some c else acc yy ((n + 0 : Nat) : Int)
    rw [weekMap_acc_ne_idx yy yy ((n + 0 : Nat) : Int) (List.enumFrom (n + 1) l)
      (fun p hp => by
        obtain ⟨i, x⟩ := p
        have := (List.mem_enumFrom hp).1
        simp only
        omega)
      (PixelCacheManager.updCell yy (n, c) acc)]
    unfold PixelCacheManager.updCell
    by_cases hb : c.1.isSome
    · rw [if_pos hb, if_pos (show ((n, c).2.1.isSome = true) from hb)]
      show (if yy = yy ∧ ((n + 0 : Nat) : Int) = ((n, c).1 : Int) then some (n, c).2
            else acc yy ((n + 0 : Nat) : Int)) = some c
      rw [if_pos ⟨rfl, by push_cast; ring⟩]
    · rw [if_neg hb, if_neg (show ¬((n, c).2.1.isSome = true) from hb)]
  | c :: l, n, wn + 1, cell, hcell, acc => by
    have hcell' : l[wn]? = some cell := by simpa using hcell
    show PixelCacheManager.weekMap yy (List.enumFrom (n + 1) l)
        (PixelCacheManager.updCell yy (n, c) acc) yy ((n + (wn + 1) : Nat) : Int)
      = if cell.1.isSome then some cell
        else acc yy ((n + (wn + 1) : Nat) : Int)
    have harg : ((n + (wn + 1) : Nat) : Int) = (((n + 1) + wn : Nat) : Int) := by
      push_cast; ring
    rw [harg, weekMap_enumFrom_get yy l (n + 1) wn cell hcell'
      (PixelCacheManager.updCell yy (n, c) acc)]
    by_cases hb : cell.1.isSome
    · rw [if_pos hb, if_pos hb]
    · rw [if_neg hb, if_neg hb]
      unfold PixelCacheManager.updCell
      split
      · exact if_neg (fun h => by
          have := h.2
          push_cast at this
          omega)
      · rfl

theorem outer_fold_ne_year (y w : Int) :
    ∀ (l : List PixelWeeklyData), (∀ r ∈ l, r.year ≠ y) →
      ∀ (acc : Int → Int → Option (Option Int × Int)),
        (l.foldl (fun acc rec => PixelCacheManager.weekMap rec.year rec.data.enum acc) acc) y w
          = acc y w
  | [], _, _ => rfl
  | r :: l, hl, acc => by
    show (l.foldl (fun acc rec => PixelCacheManager.weekMap rec.year rec.data.enum acc)
        (PixelCacheManager.weekMap r.year r.data.enum acc)) y w = acc y w
    rw [outer_fold_ne_year y w l (fun q hq => hl q (List.mem_cons_of_mem r hq))
      (PixelCacheManager.weekMap r.year r.data.enum acc)]
    exact weekMap_acc_ne_year r.year y w (hl r (List.mem_cons_self r l)) r.data.enum acc

/-- The `existing_data` table of the cache manager, characterized at a stored
cell: assuming one record per year (the invariant maintained by every writer
in the code base), the table holds exactly the non-null cells. -/
theorem buildExisting_get (recs : List PixelWeeklyData) (y : Int) (w : Nat)
    (rec : PixelWeeklyData) (cell : Option Int × Int)
    (hnodup : (recs.map PixelWeeklyData.year).Nodup)
    (hmem : rec ∈ recs) (hyear : rec.year = y)
    (hcell : rec.data[w]? = some cell) :
    PixelCacheManager.buildExisting recs y (w : Int)
      = if cell.1.isSome then some cell else none := by
  subst hyear
  obtain ⟨s, t, rfl⟩ := List.mem_iff_append.mp hmem
  rw [show ((s ++ rec :: t).map PixelWeeklyData.year)
      = s.map PixelWeeklyData.year ++ rec.year :: t.map PixelWeeklyData.year by simp]
    at hnodup
  obtain ⟨hA, hB, hdisj⟩ := List.nodup_append.mp hnodup
  have hs : ∀ r ∈ s, r.year ≠ rec.year := by
    intro r hr hry
    exact hdisj (hry ▸ List.mem_map_of_mem PixelWeeklyData.year hr)
      (List.mem_cons_self _ _)
  have ht : ∀ r ∈ t, r.year ≠ rec.year := by
    intro r hr hry
    exact (List.nodup_cons.mp hB).1 (hry ▸ List.mem_map_of_mem PixelWeeklyData.year hr)
  unfold PixelCacheManager.buildExisting
  rw [List.foldl_append]
  show (t.foldl (fun acc r => PixelCacheManager.weekMap r.year r.data.enum acc)
      (PixelCacheManager.weekMap rec.year rec.data.enum
        (s.foldl (fun acc r => PixelCacheManager.weekMap r.year r.data.enum acc)
          (fun _ _ => none)))) rec.year (w : Int)
    = if cell.1.isSome then some cell else none
  rw [outer_fold_ne_year rec.year (w : Int) t ht]
  rw [show rec.data.enum = List.enumFrom 0 rec.data from rfl,
    show ((w : Nat) : Int) = ((0 + w : Nat) : Int) by simp]
  rw [weekMap_enumFrom_get rec.year rec.data 0 w cell hcell]
  by_cases hb : cell.1.isSome
  · rw [if_pos hb, if_pos hb]
  · rw [if_neg hb, if_neg hb]
    exact outer_fold_ne_year rec.year _ s hs (fun _ _ => none)

theorem mem_yearRange (a b y : Int) :
    y ∈ PixelCacheManager.yearRange a b ↔ a ≤ y ∧ y ≤ b := by
  unfold PixelCacheManager.yearRange
  simp only [List.mem_map, List.mem_range]
  constructor
  · rintro ⟨k, hk, rfl⟩
    omega
  · rintro ⟨h1, h2⟩
    exact ⟨(y - a).toNat, by omega, by omega⟩

theorem le_pymin (c a b : PyDate) (h1 : PyDate.le c a = true)
    (h2 : PyDate.le c b = true) : PyDate.le c (pymin a b) = true := by
  unfold pymin; split <;> assumption

theorem pymax_le (a b c : PyDate) (h1 : PyDate.le a c = true)
    (h2 : PyDate.le b c = true) : PyDate.le (pymax a b) c = true := by
  unfold pymax; split <;> assumption

/-- Membership in the cache manager's missing-week list, characterized. -/
theorem mem_missingWeeksOfRecords (recs : List PixelWeeklyData) (startD endD : PyDate)
    (d : PyDate) (i : Int) :
    (d, i) ∈ PixelCacheManager.missingWeeksOfRecords recs startD endD
    ↔ ∃ y, (startD.year ≤ y ∧ y ≤ endD.year) ∧ ∃ k : Nat, k < 53
        ∧ PyDate.le ⟨y, 7 * (k : Int)⟩ (pymin ⟨y, daysInYear y - 1⟩ endD) = true
        ∧ PyDate.le (pymax ⟨y, 0⟩ startD) ⟨y, 7 * (k : Int)⟩ = true
        ∧ d = ⟨y, 7 * (k : Int)⟩ ∧ i = (k : Int)
        ∧ (PixelCacheManager.buildExisting recs y (k : Int) = none
           ∨ ∃ cp : Int, PixelCacheManager.buildExisting recs y (k : Int)
               = some ((some 400 : Option Int), cp)) := by
  unfold PixelCacheManager.missingWeeksOfRecords
  simp only [List.mem_flatMap, List.mem_filterMap, List.mem_range, mem_yearRange,
    calculate_week_index_jan1, seven_mul_fdiv]
  constructor
  · rintro ⟨y, hy, k, hk, hfk⟩
    refine ⟨y, hy, k, hk, ?_⟩
    rcases hlk : PixelCacheManager.buildExisting recs y (k : Int) with _ | cell
    · rw [hlk] at hfk
      split at hfk
      · split at hfk
        · rename_i h1 h2
          have hfk' : some ((⟨y, 7 * (k : Int)⟩ : PyDate), (k : Int)) = some (d, i) := hfk
          obtain ⟨hd, hi⟩ := Prod.mk.injEq .. ▸ Option.some.inj hfk'
          exact ⟨h1, h2, hd.symm, hi.symm, Or.inl rfl⟩
        · exact absurd hfk (by simp)
      · exact absurd hfk (by simp)
    · rw [hlk] at hfk
      split at hfk
      · split at hfk
        · rename_i h1 h2
          have hfk' : (if cell.1 = some 400
              then some ((⟨y, 7 * (k : Int)⟩ : PyDate), (k : Int)) else none)
              = some (d, i) := hfk
          split at hfk'
          · rename_i h400
            obtain ⟨hd, hi⟩ := Prod.mk.injEq .. ▸ Option.some.inj hfk'
            refine ⟨h1, h2, hd.symm, hi.symm, Or.inr ⟨cell.2, ?_⟩⟩
            obtain ⟨c1, c2⟩ := cell
            simp_all
          · exact absurd hfk' (by simp)
        · exact absurd hfk (by simp)
      · exact absurd hfk (by simp)
  · rintro ⟨y, hy, k, hk, h1, h2, rfl, rfl, hcond⟩
    refine ⟨y, hy, k, hk, ?_⟩
    rw [if_pos h1, if_pos h2]
    rcases hcond with hnone | ⟨cp, hsome⟩
    · rw [hnone]
    · rw [hsome]
      show (if (some 400 : Option Int) = some 400
          then some ((⟨y, 7 * (k : Int)⟩ : PyDate), (k : Int)) else none) = _
      rw [if_pos rfl]

theorem sq_fold_ne_year :
    ∀ (l : List PixelWeeklyData) (y : Int), (∀ r ∈ l, r.year ≠ y) →
      ∀ (acc : Int → Option (List (Option Int × Int))),
        (l.foldl (fun acc rec => fun z => if z = rec.year then some rec.data else acc z)
          acc) y = acc y
  | [], _, _, _ => rfl
  | r :: l, y, hl, acc => by
    show (l.foldl (fun acc rec => fun z => if z = rec.year then some rec.data else acc z)
        (fun z => if z = r.year then some r.data else acc z)) y = acc y
    rw [sq_fold_ne_year l y (fun q hq => hl q (List.mem_cons_of_mem r hq))]
    exact if_neg (fun h => hl r (List.mem_cons_self r l) h.symm)

/-- The archive's `existing_data` dictionary at a present year. -/
theorem sq_existingMap_get (recs : List PixelWeeklyData) (y : Int)
    (rec : PixelWeeklyData)
    (hnodup : (recs.map PixelWeeklyData.year).Nodup)
    (hmem : rec ∈ recs) (hyear : rec.year = y) :
    SnowCoverSQLiteArchive.existingMap recs y = some rec.data := by
  subst hyear
  obtain ⟨s, t, rfl⟩ := List.mem_iff_append.mp hmem
  rw [show ((s ++ rec :: t).map PixelWeeklyData.year)
      = s.map PixelWeeklyData.year ++ rec.year :: t.map PixelWeeklyData.year by simp]
    at hnodup
  obtain ⟨hA, hB, hdisj⟩ := List.nodup_append.mp hnodup
  have ht : ∀ r ∈ t, r.year ≠ rec.year := by
    intro r hr hry
    exact (List.nodup_cons.mp hB).1 (hry ▸ List.mem_map_of_mem PixelWeeklyData.year hr)
  unfold SnowCoverSQLiteArchive.existingMap
  rw [List.foldl_append]
  show (t.foldl (fun acc r => fun z => if z = r.year then some r.data else acc z)
      (fun z => if z = rec.year then some rec.data
       else (s.foldl (fun acc r => fun z => if z = r.year then some r.data else acc z)
          (fun _ => none)) z)) rec.year = some rec.data
  rw [sq_fold_ne_year t rec.year ht]
  exact if_pos rfl

theorem calculate_week_index_self (d : PyDate) :
    calculate_week_index d d.year = d.doy.fdiv 7 := by
  simp [calculate_week_index, PyDate.ord]

/-- C1 (amended): consider a pixel whose stored records have one record per
year (the invariant every writer maintains) with a cell at week `w ≤ 52` of
year `y`, and a date window covering that week's date.  Then
`PixelCacheManager.get_missing_weeks_for_pixel` reports the week as missing
if the cell's value is 400 and does not report it for any other non-null
value (e.g. 301); `SnowCoverSQLiteArchive.get_missing_weeks_for_pixel`,
however, never reports a week whose stored value is non-null — not even for
the retryable code 400. -/
theorem missing_weeks_retry_semantics
    (recs : List PixelWeeklyData) (startD endD : PyDate) (y : Int) (w : Nat)
    (rec : PixelWeeklyData) (cell : Option Int × Int)
    (hnodup : (recs.map PixelWeeklyData.year).Nodup)
    (hmem : rec ∈ recs) (hyear : rec.year = y)
    (hcell : rec.data[w]? = some cell) (hw : w ≤ 52)
    (hys : startD.year ≤ y) (hye : y ≤ endD.year)
    (hs : PyDate.le startD ⟨y, 7 * (w : Int)⟩ = true)
    (he : PyDate.le ⟨y, 7 * (w : Int)⟩ endD = true)
    (hsn : startD.normalized) :
    (cell.1 = some 400 →
        ((⟨y, 7 * (w : Int)⟩ : PyDate), (w : Int))
          ∈ PixelCacheManager.missingWeeksOfRecords recs startD endD)
    ∧ (∀ v : Int, cell.1 = some v → v ≠ 400 →
        ((⟨y, 7 * (w : Int)⟩ : PyDate), (w : Int))
          ∉ PixelCacheManager.missingWeeksOfRecords recs startD endD)
    ∧ (∀ v : Int, cell.1 = some v →
        ∀ (d : PyDate) (i : Int),
          (d, i) ∈ SnowCoverSQLiteArchive.get_missing_weeks_for_pixel recs startD endD →
          d.year = y → i = (w : Int) → False) := by
  have hdiy := daysInYear_ge y
  refine ⟨?_, ?_, ?_⟩
  · intro h400
    apply (mem_missingWeeksOfRecords recs startD endD _ _).mpr
    refine ⟨y, ⟨hys, hye⟩, w, by omega, ?_, ?_, rfl, rfl, ?_⟩
    · exact le_pymin _ _ _ ((PyDate.le_iff _ _).mpr (Or.inr ⟨rfl,
        show (7 : Int) * (w : Int) ≤ daysInYear y - 1 by omega⟩)) he
    · exact pymax_le _ _ _ ((PyDate.le_iff _ _).mpr (Or.inr ⟨rfl,
        show (0 : Int) ≤ 7 * (w : Int) by omega⟩)) hs
    · refine Or.inr ⟨cell.2, ?_⟩
      rw [buildExisting_get recs y w rec cell hnodup hmem hyear hcell,
        if_pos (by simp [h400])]
      obtain ⟨c1, c2⟩ := cell
      simp_all
  · intro v hv hne hmem'
    obtain ⟨y', hy', k, hk, h1, h2, hd, hi, hcond⟩ :=
      (mem_missingWeeksOfRecords recs startD endD _ _).mp hmem'
    rw [PyDate.mk.injEq] at hd
    obtain ⟨rfl, hdoy⟩ : y = y' ∧ (7 : Int) * (w : Int) = 7 * (k : Int) := hd
    obtain rfl : w = k := by omega
    rw [buildExisting_get recs y w rec cell hnodup hmem hyear hcell,
      if_pos (by simp [hv])] at hcond
    rcases hcond with hcond | ⟨cp, hcond⟩
    · exact absurd hcond (by simp)
    · have : cell.1 = some 400 := by
        rw [Option.some.inj hcond]
      rw [hv] at this
      exact hne (Option.some.inj this)
  · intro v hv d i hmem' hdy hiw
    unfold SnowCoverSQLiteArchive.get_missing_weeks_for_pixel at hmem'
    obtain ⟨n, hn, hfn⟩ := List.mem_filterMap.mp hmem'
    have hnorm := iterate_addWeek_normalized startD hsn n
    rcases hscr : ((SnowCoverSQLiteArchive.existingMap recs
          (addWeek^[n] startD).year).getD
        [])[(calculate_week_index (addWeek^[n] startD) (addWeek^[n] startD).year).toNat]?
      with _ | c
    · rw [hscr] at hfn
      have hfn' : some (addWeek^[n] startD,
          calculate_week_index (addWeek^[n] startD) (addWeek^[n] startD).year)
          = some (d, i) := hfn
      obtain ⟨hcur, hi⟩ := Prod.mk.injEq .. ▸ Option.some.inj hfn'
      have hwi : calculate_week_index (addWeek^[n] startD) (addWeek^[n] startD).year
          = (w : Int) := hi.trans hiw
      have hyy : (addWeek^[n] startD).year = y := by rw [hcur, hdy]
      rw [hwi, Int.toNat_natCast, hyy,
        sq_existingMap_get recs y rec hnodup hmem hyear, Option.getD_some, hcell] at hscr
      exact absurd hscr (by simp)
    · rw [hscr] at hfn
      have hfn' : (if c.1 = none
          then some (addWeek^[n] startD,
            calculate_week_index (addWeek^[n] startD) (addWeek^[n] startD).year)
          else none) = some (d, i) := hfn
      split at hfn'
      · rename_i hc0
        obtain ⟨hcur, hi⟩ := Prod.mk.injEq .. ▸ Option.some.inj hfn'
        have hwi : calculate_week_index (addWeek^[n] startD) (addWeek^[n] startD).year
            = (w : Int) := hi.trans hiw
        have hyy : (addWeek^[n] startD).year = y := by rw [hcur, hdy]
        rw [hwi, Int.toNat_natCast, hyy,
          sq_existingMap_get recs y rec hnodup hmem hyear, Option.getD_some, hcell] at hscr
        have : cell = c := Option.some.inj hscr
        rw [← this, hv] at hc0
        exact absurd hc0 (by simp)
      · exact absurd hfn' (by simp)

/-- One stored 2024 record: week 0 holds the retryable code 400, week 1 holds
the permanent code 301. -/
def recRetry : PixelWeeklyData :=
  ⟨2024, [((some 400 : Option Int), 0), ((some 301 : Option Int), 7)]⟩

theorem missing_weeks_retry_semantics_witness :
    (((⟨2024, 0⟩ : PyDate), (0 : Int))
        ∈ PixelCacheManager.missingWeeksOfRecords [recRetry] ⟨2024, 0⟩ ⟨2024, 365⟩)
    ∧ (((⟨2024, 7⟩ : PyDate), (1 : Int))
        ∉ PixelCacheManager.missingWeeksOfRecords [recRetry] ⟨2024, 0⟩ ⟨2024, 365⟩) := by
  constructor
  · have h := (missing_weeks_retry_semantics [recRetry] ⟨2024, 0⟩ ⟨2024, 365⟩ 2024 0
      recRetry ((some 400 : Option Int), 0) (by decide) (by decide) rfl (by decide)
      (by decide) (by decide) (by decide) (by decide) (by decide)
      ⟨by decide, by decide⟩).1 rfl
    simpa using h
  · have h := (missing_weeks_retry_semantics [recRetry] ⟨2024, 0⟩ ⟨2024, 365⟩ 2024 1
      recRetry ((some 301 : Option Int), 7) (by decide) (by decide) rfl (by decide)
      (by decide) (by decide) (by decide) (by decide) (by decide)
      ⟨by decide, by decide⟩).2.1 301 rfl (by decide)
    simpa using h

/-- C1 counterexample: the claim as stated fails on
`SnowCoverSQLiteArchive.get_missing_weeks_for_pixel`: a pixel whose 2024
record stores the retryable code 400 in week 0 does *not* get week 0 reported
as missing over the window Jan 1 – Dec 31 2024. -/
theorem sqlite_misses_retryable_week :
    ((⟨2024, 0⟩ : PyDate), (0 : Int))
      ∉ SnowCoverSQLiteArchive.get_missing_weeks_for_pixel
          [⟨2024, [((some 400 : Option Int), 0)]⟩] ⟨2024, 0⟩ ⟨2024, 365⟩ := by
  decide
